import Mathlib

/-!
Verification of the tool-calling orchestration core of the
requirements-advisor client.

The development shallowly embeds two backend modules:

* `backend/llm.py` — the schema translator `mcp_to_litellm_tools`, the
  tool-result extractor `extract_tool_result`, and the orchestration loop
  `call_llm_with_mcp_tools` (provider lookup against `MODEL_MAP`, the
  bounded tool-calling loop, per-call error absorption, and the forced
  final no-tools call).
* `backend/mcp_client.py` — the `MCPClient` connector (`is_connected`,
  `list_tools`, `call_tool`).

External collaborators are modelled as explicit parameters: the LiteLLM
completion endpoint is a function from (model, invocation index,
transcript, optional tool schemas) to an assistant message; `json.loads`
is a function from a raw-argument string to an optional parsed argument
set; the remote MCP session is a function from (tool name, arguments) to
an `Except` (an exception carries its message string).  Python truthiness
of the `tool_calls` field (None and the empty list are both falsy) is
modelled explicitly.  The orchestrator additionally returns a trace of
the remote invocations it performed, so that "zero remote calls" claims
are statable.
-/

namespace AdvisorClient

/-- Parsed tool arguments (the dict produced by `json.loads`); modelled as
an association list of string keys to string values — the orchestrator
never inspects the arguments, it only forwards them. -/
abbrev Args := List (String × String)

/-- Result of a remote MCP tool call, as consumed by
`extract_tool_result` (llm.py:61-75): either an object with a `content`
list of blocks, where each block may or may not carry a `text`
attribute, or a plain value whose string form is used. -/
inductive MCPResult where
  | blocks (content : List (Option String)) : MCPResult
  | plain (s : String) : MCPResult
deriving DecidableEq

/-- llm.py:61-75 `extract_tool_result`: join the `text` of the content
blocks that have one with newlines, or fall back to `str(result)`. -/
def extract_tool_result : MCPResult → String
  | .blocks content => String.intercalate "\n" (content.filterMap id)
  | .plain s => s

/-- An MCP tool descriptor (`mcp.Tool`): name, optional description, and
an input schema.  The schema body is never inspected by this repository,
so its type `τ` is kept abstract. -/
structure MCPTool (τ : Type) where
  name : String
  description : Option String
  inputSchema : τ

/-- The `function` part of a LiteLLM/OpenAI tool definition. -/
structure LiteLLMFunction (τ : Type) where
  name : String
  description : String
  parameters : τ

/-- One entry of the LiteLLM/OpenAI tool list. -/
structure LiteLLMTool (τ : Type) where
  type : String
  function : LiteLLMFunction τ

/-- llm.py:35-58 `mcp_to_litellm_tools`: convert MCP tool schemas to the
LiteLLM/OpenAI function-calling format.  `tool.description or ""` is
modelled by `Option.getD ""` (a `None` description becomes the empty
string; an empty-string description stays empty either way). -/
def mcp_to_litellm_tools {τ : Type} (mcp_tools : List (MCPTool τ)) : List (LiteLLMTool τ) :=
  mcp_tools.map fun tool =>
    { type := "function"
      function :=
        { name := tool.name
          description := tool.description.getD ""
          parameters := tool.inputSchema } }

/-- The remote MCP session handle (`mcp.ClientSession`) held by a
connected client: invoking a tool either returns a result or raises (an
`Except.error` carrying the exception's message). -/
structure ClientSession where
  call_tool : String → Args → Except String MCPResult

/-- The value cached by `MCPClient.connect` (`session.list_tools()`
returns an object whose `tools` field is the catalog). -/
structure ListToolsResult (τ : Type) where
  tools : List (MCPTool τ)

/-- mcp_client.py:19-42 `MCPClient` state: `session` is `None` until
`connect` succeeds; `_tools_cache` holds the catalog fetched at connect
time. -/
structure MCPClient (τ : Type) where
  session : Option ClientSession
  tools_cache : Option (ListToolsResult τ)

/-- mcp_client.py:44-51 `MCPClient.is_connected`: the session is not
`None`. -/
def MCPClient.is_connected {τ : Type} (c : MCPClient τ) : Bool :=
  c.session.isSome

/-- mcp_client.py:112-127 `MCPClient.list_tools`: return the empty list
when not connected, otherwise the cached catalog (empty if the cache is
unset). -/
def MCPClient.list_tools {τ : Type} (c : MCPClient τ) : List (MCPTool τ) :=
  if !c.is_connected then []
  else
    match c.tools_cache with
    | some cache => cache.tools
    | none => []

/-- mcp_client.py:129-160 `MCPClient.call_tool`: raise
`RuntimeError("Not connected to MCP server")` when no session exists,
otherwise delegate to the session (the `try`/`except` around the remote
call logs and re-raises, i.e. is the identity on the outcome).  The
not-connected check precedes any use of the session, so no remote
invocation is attempted in that case. -/
def MCPClient.call_tool {τ : Type} (c : MCPClient τ) (tool_name : String)
    (arguments : Args) : Except String MCPResult :=
  match c.session with
  | none => .error "Not connected to MCP server"
  | some s => s.call_tool tool_name arguments

/-- A tool call as it appears on a LiteLLM assistant message:
`tool_call.id`, `tool_call.function.name`,
`tool_call.function.arguments` (a raw serialized string). -/
structure ToolCall where
  id : String
  name : String
  arguments : String
deriving DecidableEq

/-- One entry of the conversation message list handed to LiteLLM.  User,
system, assistant and tool messages are all dicts in the Python source;
keys a given role never sets are modelled by `none` / `[]`. -/
structure Message where
  role : String
  content : Option String
  tool_calls : List ToolCall
  tool_call_id : Option String
deriving DecidableEq

/-- The assistant message carried by the provider response
(`response.choices[0].message`): optional text content and an optional
list of tool calls (`None` when the provider omits the field). -/
structure AssistantMessage where
  content : Option String
  tool_calls : Option (List ToolCall)
deriving DecidableEq

/-- Python truthiness of the `tool_calls` field: `not
assistant_message.tool_calls` is true exactly when the field is `None`
or the empty list. -/
def truthy (tool_calls : Option (List ToolCall)) : Bool :=
  match tool_calls with
  | none => false
  | some calls => !calls.isEmpty

/-- llm.py:141 `assistant_message.model_dump()`: the dict appended to
the transcript for a tool-calling assistant turn.  It carries the
provider-supplied content verbatim along with the tool calls. -/
def AssistantMessage.model_dump (m : AssistantMessage) : Message :=
  { role := "assistant"
    content := m.content
    tool_calls := m.tool_calls.getD []
    tool_call_id := none }

/-- llm.py:20-24 `MODEL_MAP`: the fixed registry of supported provider
keys. -/
def MODEL_MAP : List (String × String) :=
  [("claude", "anthropic/claude-sonnet-4-20250514"),
   ("openai", "gpt-4o"),
   ("gemini", "gemini/gemini-2.5-flash")]

/-- The external LiteLLM endpoint: `litellm.completion` as a function of
the model identifier, the invocation index (how many completions were
issued before this one — this is how test stubs with response sequences
are modelled), the message list, and the `tools` argument (`none` when
the Python call passes `tools=None` or omits the keyword).  The
`asyncio.to_thread` wrapper and the `choices[0]` indexing are collapsed:
the endpoint directly yields the assistant message. -/
structure LiteLLM (σ : Type) where
  completion : String → Nat → List Message → Option (List σ) → AssistantMessage

/-- The external `json` library: `loads` yields `none` when the raw
string is not parseable (the `json.JSONDecodeError` path), otherwise the
parsed argument set. -/
structure JsonLib where
  loads : String → Option Args

/-- A remote invocation performed by the orchestrator: one LiteLLM
completion call (recording the `tools` argument it passed) or one MCP
`session.call_tool` attempt (recording name and arguments).  Tool events
are recorded exactly when a connected client's remote session is
invoked. -/
inductive TraceEvent (σ : Type) where
  | model (tools : Option (List σ))
  | tool (name : String) (arguments : Args)

/-- llm.py:148-153: parse `tool_call.function.arguments` with
`json.loads`; on `JSONDecodeError` fall back to the empty argument set. -/
def argsOf (json : JsonLib) (tool_call : ToolCall) : Args :=
  match json.loads tool_call.arguments with
  | some a => a
  | none => []

/-- llm.py:144-171, body of the per-call loop: parse the arguments,
execute the tool when a connected client is available (absorbing a
raised exception into `"Error calling tool: <e>"`), otherwise synthesize
`"Error: MCP client not connected"`; return the tool-result message
tagged with the originating call's id, together with the remote
invocations attempted. -/
def execToolCall {σ τ : Type} (json : JsonLib) (mcp_client : Option (MCPClient τ))
    (tool_call : ToolCall) : Message × List (TraceEvent σ) :=
  let tool_args := argsOf json tool_call
  let step : String × List (TraceEvent σ) :=
    match mcp_client with
    | some c =>
      if c.is_connected then
        match c.call_tool tool_call.name tool_args with
        | .ok result => (extract_tool_result result, [.tool tool_call.name tool_args])
        | .error e => ("Error calling tool: " ++ e, [.tool tool_call.name tool_args])
      else ("Error: MCP client not connected", [])
    | none => ("Error: MCP client not connected", [])
  ({ role := "tool"
     content := some step.1
     tool_calls := []
     tool_call_id := some tool_call.id }, step.2)

/-- llm.py:144-171: execute the round's tool calls in the order
received, collecting the tool-result messages (in the same order) and
the remote invocations attempted. -/
def execToolCalls {σ τ : Type} (json : JsonLib) (mcp_client : Option (MCPClient τ)) :
    List ToolCall → List Message × List (TraceEvent σ)
  | [] => ([], [])
  | tc :: rest =>
    let one := execToolCall (σ := σ) json mcp_client tc
    let more := execToolCalls json mcp_client rest
    (one.1 :: more.1, one.2 ++ more.2)

/-- llm.py:121-180, the bounded loop.  `fuel` is the number of remaining
iterations of `for iteration in range(max_iterations)`; `calls` is the
completion-invocation index; `current_messages` is the working copy of
the transcript; `events` accumulates remote invocations.  At fuel 0 the
forced final completion is issued without tools (llm.py:173-180) and its
text (`content or ""`) is returned.  Otherwise one completion is issued
with `tools if tools else None`; a response with falsy `tool_calls` ends
the run with `content or ""`; a truthy one appends
`assistant_message.model_dump()` and the round's tool results, then
loops. -/
def runLoop {σ τ : Type} (llm : LiteLLM σ) (json : JsonLib)
    (mcp_client : Option (MCPClient τ)) (model : String) (tools : List σ) :
    Nat → Nat → List Message → List (TraceEvent σ) →
      String × List Message × List (TraceEvent σ)
  | 0, calls, current_messages, events =>
    let final_response := llm.completion model calls current_messages none
    (final_response.content.getD "", current_messages, events ++ [.model none])
  | fuel + 1, calls, current_messages, events =>
    let toolsArg := if tools.isEmpty then none else some tools
    let assistant_message := llm.completion model calls current_messages toolsArg
    let events := events ++ [.model toolsArg]
    if !truthy assistant_message.tool_calls then
      (assistant_message.content.getD "", current_messages, events)
    else
      let round := execToolCalls (σ := σ) json mcp_client
        (assistant_message.tool_calls.getD [])
      runLoop llm json mcp_client model tools fuel (calls + 1)
        (current_messages ++ assistant_message.model_dump :: round.1)
        (events ++ round.2)

/-- Outcome of one orchestration run: the result (`Except.error` models
the raised `ValueError` for an unsupported provider, `Except.ok` the
returned final text), the final working transcript, and the trace of
remote invocations performed. -/
structure RunResult (σ : Type) where
  result : Except String String
  transcript : List Message
  events : List (TraceEvent σ)

/-- llm.py:78-180 `call_llm_with_mcp_tools`: look the provider up in
`MODEL_MAP` (`if not model` also guards against an empty-string model),
raise `ValueError` with the "Unsupported provider" message on failure,
otherwise copy the caller's message list (`messages.copy()`) and run the
loop on the copy. -/
def call_llm_with_mcp_tools {σ τ : Type} (llm : LiteLLM σ) (json : JsonLib)
    (provider : String) (messages : List Message) (tools : List σ)
    (mcp_client : Option (MCPClient τ)) (max_iterations : Nat) : RunResult σ :=
  match MODEL_MAP.lookup provider with
  | none =>
    { result := .error ("Unsupported provider '" ++ provider ++ "'. Available: "
        ++ String.intercalate ", " (MODEL_MAP.map Prod.fst))
      transcript := messages
      events := [] }
  | some model =>
    if model = "" then
      { result := .error ("Unsupported provider '" ++ provider ++ "'. Available: "
          ++ String.intercalate ", " (MODEL_MAP.map Prod.fst))
        transcript := messages
        events := [] }
    else
      let current_messages := messages
      let out := runLoop llm json mcp_client model tools max_iterations 0
        current_messages []
      { result := .ok out.1, transcript := out.2.1, events := out.2.2 }

/-- llm.py:156: the guard `mcp_client and mcp_client.is_connected`. -/
def mcpConnected {τ : Type} (mcp_client : Option (MCPClient τ)) : Bool :=
  match mcp_client with
  | some c => c.is_connected
  | none => false

/-- The `tools` arguments of the completion calls in a trace, in order
(`TraceEvent.tool` entries dropped). -/
def modelEvents {σ : Type} (events : List (TraceEvent σ)) : List (Option (List σ)) :=
  events.filterMap fun e =>
    match e with
    | .model t => some t
    | .tool _ _ => none

/-! ### Concrete stubs used by witnesses and counterexamples -/

/-- A tool call whose raw arguments are not parseable. -/
def wTc1 : ToolCall := { id := "call_1", name := "search", arguments := "not json" }

/-- A tool call with parseable raw arguments. -/
def wTc2 : ToolCall := { id := "call_2", name := "lookup", arguments := "ok" }

/-- Model stub: the first invocation returns non-empty text together
with two tool calls, every later invocation returns a plain final
answer. -/
def wLLM : LiteLLM Unit :=
  { completion := fun _ k _ _ =>
      if k = 0 then { content := some "Let me look", tool_calls := some [wTc1, wTc2] }
      else { content := some "Final answer", tool_calls := none } }

/-- Model stub that returns a tool request on every invocation. -/
def wLoopLLM : LiteLLM Unit :=
  { completion := fun _ _ _ _ =>
      { content := some "more tools", tool_calls := some [wTc1] } }

/-- `json.loads` stub: only the string "ok" parses. -/
def wJson : JsonLib :=
  { loads := fun s => if s = "ok" then some [("q", "v")] else none }

/-- Remote session stub: the `search` tool returns content blocks, any
other tool raises with message "boom". -/
def wSession : ClientSession :=
  { call_tool := fun n _ =>
      if n = "search" then .ok (.blocks [some "hit", none, some "more"])
      else .error "boom" }

/-- A connected client holding the stub session. -/
def wClient : MCPClient Unit := { session := some wSession, tools_cache := none }

/-- The assistant message `wLoopLLM` appends to the transcript each
round (its `model_dump`). -/
def wDump : Message :=
  { role := "assistant"
    content := some "more tools"
    tool_calls := [wTc1]
    tool_call_id := none }

/-- The tool-result message each `wLoopLLM` round produces: `wTc1`'s
arguments do not parse, the connected stub session returns the content
blocks for "search", and extraction joins the block texts. -/
def wToolMsg : Message :=
  { role := "tool"
    content := some ("hit" ++ "\n" ++ "more")
    tool_calls := []
    tool_call_id := some "call_1" }

/-! ### Helper lemmas about the per-round executor and the trace -/

/-- One tool call always yields a tool-result message tagged with the
originating call's id. -/
theorem execToolCall_fst {σ τ : Type} (json : JsonLib) (mcp_client : Option (MCPClient τ))
    (tc : ToolCall) :
    ((execToolCall (σ := σ) json mcp_client tc).1.role = "tool") ∧
    ((execToolCall (σ := σ) json mcp_client tc).1.tool_call_id = some tc.id) :=
  ⟨rfl, rfl⟩

/-- A round with N calls yields exactly N tool-result messages. -/
theorem execToolCalls_length {σ τ : Type} (json : JsonLib) (mcp_client : Option (MCPClient τ))
    (tool_calls : List ToolCall) :
    (execToolCalls (σ := σ) json mcp_client tool_calls).1.length = tool_calls.length := by
  induction tool_calls with
  | nil => rfl
  | cons tc rest ih => simp [execToolCalls, ih]

/-- The tool-result messages of a round carry the originating call ids in
the order the calls were issued. -/
theorem execToolCalls_ids {σ τ : Type} (json : JsonLib) (mcp_client : Option (MCPClient τ))
    (tool_calls : List ToolCall) :
    (execToolCalls (σ := σ) json mcp_client tool_calls).1.map Message.tool_call_id
      = tool_calls.map fun tc => some tc.id := by
  induction tool_calls with
  | nil => rfl
  | cons tc rest ih => simp [execToolCalls, ih]; rfl

/-- Every message produced by a round is a tool-role message with some
content. -/
theorem execToolCalls_role {σ τ : Type} (json : JsonLib) (mcp_client : Option (MCPClient τ))
    (tool_calls : List ToolCall) :
    ∀ m ∈ (execToolCalls (σ := σ) json mcp_client tool_calls).1,
      m.role = "tool" ∧ m.content.isSome = true := by
  induction tool_calls with
  | nil => intro m hm; cases hm
  | cons tc rest ih =>
    intro m hm
    simp only [execToolCalls, List.mem_cons] at hm
    rcases hm with rfl | hm
    · exact ⟨rfl, rfl⟩
    · exact ih m hm

/-- `modelEvents` distributes over concatenation. -/
theorem modelEvents_append {σ : Type} (a b : List (TraceEvent σ)) :
    modelEvents (a ++ b) = modelEvents a ++ modelEvents b := by
  simp [modelEvents]

/-- `modelEvents` of the empty trace. -/
theorem modelEvents_nil {σ : Type} : modelEvents ([] : List (TraceEvent σ)) = [] := rfl

/-- `modelEvents` keeps a leading completion event. -/
theorem modelEvents_model_cons {σ : Type} (t : Option (List σ))
    (rest : List (TraceEvent σ)) :
    modelEvents (TraceEvent.model t :: rest) = t :: modelEvents rest := rfl

/-- `modelEvents` drops a leading tool event. -/
theorem modelEvents_tool_cons {σ : Type} (n : String) (a : Args)
    (rest : List (TraceEvent σ)) :
    modelEvents (TraceEvent.tool n a :: rest) = modelEvents rest := rfl

/-- A tool call performs no completion invocation. -/
theorem modelEvents_execToolCall {σ τ : Type} (json : JsonLib)
    (mcp_client : Option (MCPClient τ)) (tc : ToolCall) :
    modelEvents ((execToolCall (σ := σ) json mcp_client tc).2) = [] := by
  rcases mcp_client with _ | c
  · rfl
  · unfold execToolCall
    dsimp only
    cases hc : c.is_connected
    · simp [hc, modelEvents]
    · simp only [hc, if_true]
      cases hr : c.call_tool tc.name (argsOf json tc) <;> simp [hr, modelEvents]

/-- A round performs no completion invocation. -/
theorem modelEvents_execToolCalls {σ τ : Type} (json : JsonLib)
    (mcp_client : Option (MCPClient τ)) (tool_calls : List ToolCall) :
    modelEvents ((execToolCalls (σ := σ) json mcp_client tool_calls).2) = [] := by
  induction tool_calls with
  | nil => rfl
  | cons tc rest ih =>
    show modelEvents ((execToolCall (σ := σ) json mcp_client tc).2
      ++ (execToolCalls (σ := σ) json mcp_client rest).2) = []
    rw [modelEvents_append, modelEvents_execToolCall, ih]
    rfl

/-- The loop only ever appends to the working transcript: the output
transcript extends the input one. -/
theorem runLoop_transcript_extends {σ τ : Type} (llm : LiteLLM σ) (json : JsonLib)
    (mcp_client : Option (MCPClient τ)) (model : String) (tools : List σ) :
    ∀ (fuel calls : Nat) (msgs : List Message) (events : List (TraceEvent σ)),
      ∃ t, (runLoop llm json mcp_client model tools fuel calls msgs events).2.1 = msgs ++ t := by
  intro fuel
  induction fuel with
  | zero => exact fun calls msgs events => ⟨[], by simp [runLoop]⟩
  | succ n ih =>
    intro calls msgs events
    cases h : truthy (llm.completion model calls msgs
        (if tools.isEmpty then none else some tools)).tool_calls with
    | false =>
      refine ⟨[], ?_⟩
      simp [runLoop, h]
    | true =>
      obtain ⟨t, ht⟩ := ih (calls + 1)
        (msgs ++ (llm.completion model calls msgs
            (if tools.isEmpty then none else some tools)).model_dump ::
          (execToolCalls (σ := σ) json mcp_client
            ((llm.completion model calls msgs
              (if tools.isEmpty then none else some tools)).tool_calls.getD [])).1)
        ((events ++ [.model (if tools.isEmpty then none else some tools)])
          ++ (execToolCalls (σ := σ) json mcp_client
            ((llm.completion model calls msgs
              (if tools.isEmpty then none else some tools)).tool_calls.getD [])).2)
      refine ⟨(llm.completion model calls msgs
          (if tools.isEmpty then none else some tools)).model_dump ::
        ((execToolCalls (σ := σ) json mcp_client
          ((llm.completion model calls msgs
            (if tools.isEmpty then none else some tools)).tool_calls.getD [])).1 ++ t), ?_⟩
      have step : runLoop llm json mcp_client model tools (n + 1) calls msgs events
          = runLoop llm json mcp_client model tools n (calls + 1)
            (msgs ++ (llm.completion model calls msgs
                (if tools.isEmpty then none else some tools)).model_dump ::
              (execToolCalls (σ := σ) json mcp_client
                ((llm.completion model calls msgs
                  (if tools.isEmpty then none else some tools)).tool_calls.getD [])).1)
            ((events ++ [.model (if tools.isEmpty then none else some tools)])
              ++ (execToolCalls (σ := σ) json mcp_client
                ((llm.completion model calls msgs
                  (if tools.isEmpty then none else some tools)).tool_calls.getD [])).2) := by
        simp [runLoop, h]
      rw [step, ht]
      simp

/-! ### Claim theorems -/

/-- Claim C4 (unsupported provider): for every provider key outside the
fixed registry `MODEL_MAP`, the orchestrator raises the
unsupported-provider `ValueError` immediately — the trace of remote
invocations is empty and the transcript is untouched, i.e. zero model or
transport calls are made — while for every key in the registry no such
error is raised (the run returns a final text). -/
theorem unsupported_provider {σ τ : Type} (llm : LiteLLM σ) (json : JsonLib)
    (mcp_client : Option (MCPClient τ)) (messages : List Message) (tools : List σ)
    (max_iterations : Nat) :
    (∀ provider, MODEL_MAP.lookup provider = none →
      (call_llm_with_mcp_tools llm json provider messages tools mcp_client
          max_iterations).result
        = .error ("Unsupported provider '" ++ provider
            ++ "'. Available: " ++ "claude, openai, gemini") ∧
      (call_llm_with_mcp_tools llm json provider messages tools mcp_client
          max_iterations).events = [] ∧
      (call_llm_with_mcp_tools llm json provider messages tools mcp_client
          max_iterations).transcript = messages) ∧
    (∀ provider, provider ∈ MODEL_MAP.map Prod.fst →
      ∃ s, (call_llm_with_mcp_tools llm json provider messages tools mcp_client
          max_iterations).result = .ok s) := by
  constructor
  · intro provider h
    rw [call_llm_with_mcp_tools, h]
    exact ⟨rfl, rfl, rfl⟩
  · intro provider hp
    simp only [ MODEL_MAP, List.map_cons, List.map_nil, List.mem_cons,
      List.not_mem_nil, or_false] at hp
    rcases hp with rfl | rfl | rfl <;> exact ⟨_, rfl⟩

/-- Witness for C4: with the stub environment, the key
"not-a-real-provider" yields the unsupported-provider error with an
empty remote trace, while the registry key "claude" yields a final
text. -/
theorem unsupported_provider_witness :
    (call_llm_with_mcp_tools wLLM wJson "not-a-real-provider" [] [()] (some wClient)
        5).result
      = .error ("Unsupported provider '" ++ "not-a-real-provider"
          ++ "'. Available: " ++ "claude, openai, gemini") ∧
    (call_llm_with_mcp_tools wLLM wJson "not-a-real-provider" [] [()] (some wClient)
        5).events = [] ∧
    ∃ s, (call_llm_with_mcp_tools wLLM wJson "claude" [] [()] (some wClient)
        5).result = .ok s :=
  ⟨((unsupported_provider wLLM wJson (some wClient) [] [()] 5).1
      "not-a-real-provider" rfl).1,
   ((unsupported_provider wLLM wJson (some wClient) [] [()] 5).1
      "not-a-real-provider" rfl).2.1,
   (unsupported_provider wLLM wJson (some wClient) [] [()] 5).2
      "claude" (by simp [ MODEL_MAP])⟩

/-- Claim C8 (schema translation): for every list of N tool descriptors,
`mcp_to_litellm_tools` emits exactly N provider function-schema entries
in the same order as the input (empty list maps to empty list), each
carrying the descriptor's name, its description with the empty string
substituted when the description is absent, and its parameter schema
verbatim, with no validation, transformation, reordering or
deduplication (the i-th output is determined by the i-th input alone, so
duplicate names pass through). -/
theorem schema_translation {τ : Type} (mcp_tools : List (MCPTool τ)) :
    mcp_to_litellm_tools ([] : List (MCPTool τ)) = [] ∧
    (mcp_to_litellm_tools mcp_tools).length = mcp_tools.length ∧
    ∀ i : Nat, (mcp_to_litellm_tools mcp_tools)[i]? =
      (mcp_tools[i]?).map fun tool =>
        { type := "function"
          function :=
            { name := tool.name
              description := tool.description.getD ""
              parameters := tool.inputSchema } } := by
  refine ⟨rfl, ?_, ?_⟩
  · simp [mcp_to_litellm_tools]
  · intro i
    simp [mcp_to_litellm_tools, List.getElem?_map]

/-- Claim C9 (connector not-connected contract): whenever the client has
no active session, `list_tools` returns the empty list without raising,
while `call_tool` fails with the not-connected error; since the
not-connected branch is taken before the session is consulted, no remote
invocation is attempted (with no session there is no remote handle to
invoke). -/
theorem connector_not_connected {τ : Type} (c : MCPClient τ)
    (h : c.is_connected = false) :
    c.list_tools = [] ∧
    ∀ (tool_name : String) (arguments : Args),
      c.call_tool tool_name arguments = .error "Not connected to MCP server" := by
  have hs : c.session = none := by
    cases hc : c.session with
    | none => rfl
    | some s => rw [MCPClient.is_connected, hc] at h; cases h
  constructor
  · rw [MCPClient.list_tools, h]
    rfl
  · intro tool_name arguments
    rw [MCPClient.call_tool, hs]

/-- Witness for C9: a freshly initialized client (session `None`, cache
unset) lists no tools and fails tool calls with the not-connected
error. -/
theorem connector_not_connected_witness :
    (MCPClient.list_tools { session := none, tools_cache := none : MCPClient Unit }) = [] ∧
    MCPClient.call_tool { session := none, tools_cache := none : MCPClient Unit }
        "search_requirements" [] = .error "Not connected to MCP server" :=
  ⟨(connector_not_connected { session := none, tools_cache := none } rfl).1,
   (connector_not_connected { session := none, tools_cache := none } rfl).2
     "search_requirements" []⟩

/-- Claim C1 (transcript well-formedness): in every orchestration round
in which the model returns the tool calls `tcs` (N of them), the
orchestrator appends the assistant message followed by exactly N
tool-result messages, each carrying the `tool_call_id` of its
originating call, in the order the calls were issued — for every
connector state and every argument-parse behaviour, i.e. regardless of
whether each call succeeds, raises, or the connector is not
connected. -/
theorem transcript_well_formedness {σ τ : Type} (llm : LiteLLM σ) (json : JsonLib)
    (mcp_client : Option (MCPClient τ)) (model : String) (tools : List σ)
    (fuel calls : Nat) (msgs : List Message) (events : List (TraceEvent σ))
    (toolsArg : Option (List σ)) (response : AssistantMessage)
    (tcs : List ToolCall) (results : List Message)
    (harg : toolsArg = if tools.isEmpty then none else some tools)
    (hresp : response = llm.completion model calls msgs toolsArg)
    (hcalls : response.tool_calls = some tcs) (hne : tcs ≠ [])
    (hres : results = (execToolCalls (σ := σ) json mcp_client tcs).1) :
    results.length = tcs.length ∧
    results.map Message.tool_call_id = tcs.map (fun tc => some tc.id) ∧
    (∀ m ∈ results, m.role = "tool") ∧
    runLoop llm json mcp_client model tools (fuel + 1) calls msgs events =
      runLoop llm json mcp_client model tools fuel (calls + 1)
        (msgs ++ response.model_dump :: results)
        ((events ++ [.model toolsArg])
          ++ (execToolCalls (σ := σ) json mcp_client tcs).2) := by
  subst harg hres hresp
  have ht : truthy (some tcs) = true := by
    cases tcs with
    | nil => exact absurd rfl hne
    | cons a l => rfl
  refine ⟨execToolCalls_length json mcp_client tcs,
    execToolCalls_ids json mcp_client tcs,
    fun m hm => (execToolCalls_role json mcp_client tcs m hm).1, ?_⟩
  simp [runLoop, hcalls, ht]

/-- Witness for C1: with the stub model request carrying the two calls
`wTc1`, `wTc2`, the round appends exactly two tool-result messages
carrying "call_1" and "call_2" in order. -/
theorem transcript_well_formedness_witness :
    (execToolCalls (σ := Unit) wJson (some wClient) [wTc1, wTc2]).1.length
        = ([wTc1, wTc2] : List ToolCall).length ∧
    (execToolCalls (σ := Unit) wJson (some wClient) [wTc1, wTc2]).1.map
        Message.tool_call_id = ([wTc1, wTc2] : List ToolCall).map (fun tc => some tc.id) ∧
    (∀ m ∈ (execToolCalls (σ := Unit) wJson (some wClient) [wTc1, wTc2]).1,
      m.role = "tool") ∧
    runLoop wLLM wJson (some wClient) "m" [()] (4 + 1) 0 [] [] =
      runLoop wLLM wJson (some wClient) "m" [()] 4 (0 + 1)
        ([] ++ (wLLM.completion "m" 0 [] (some [()])).model_dump ::
          (execToolCalls (σ := Unit) wJson (some wClient) [wTc1, wTc2]).1)
        (([] ++ [.model (some [()])])
          ++ (execToolCalls (σ := Unit) wJson (some wClient) [wTc1, wTc2]).2) :=
  transcript_well_formedness wLLM wJson (some wClient) "m" [()] 4 0 [] []
    (some [()]) (wLLM.completion "m" 0 [] (some [()])) [wTc1, wTc2]
    (execToolCalls (σ := Unit) wJson (some wClient) [wTc1, wTc2]).1
    rfl rfl rfl (by decide) rfl

/-- Claim C5 (per-call failure absorption): the content of the appended
tool-result message is determined by the outcome — if the connector is
absent or reports not connected it is exactly "Error: MCP client not
connected"; if the connector call raises with cause `e` it is
"Error calling tool: " followed by the cause.  `execToolCall` is a total
function returning a tool-result message in every case, so no exception
propagates out of the orchestrator and the round proceeds to the next
call. -/
theorem per_call_failure_absorption {σ τ : Type} (json : JsonLib) (tc : ToolCall) :
    (∀ mcp_client : Option (MCPClient τ), mcpConnected mcp_client = false →
      (execToolCall (σ := σ) json mcp_client tc).1 =
        { role := "tool"
          content := some "Error: MCP client not connected"
          tool_calls := []
          tool_call_id := some tc.id }) ∧
    (∀ (s : ClientSession) (cache : Option (ListToolsResult τ)) (e : String),
      s.call_tool tc.name (argsOf json tc) = .error e →
      (execToolCall (σ := σ) json
          (some { session := some s, tools_cache := cache }) tc).1 =
        { role := "tool"
          content := some ("Error calling tool: " ++ e)
          tool_calls := []
          tool_call_id := some tc.id }) := by
  constructor
  · intro mcp_client h
    rcases mcp_client with _ | c
    · rfl
    · have hc : c.is_connected = false := h
      unfold execToolCall
      simp [hc]
  · intro s cache e he
    unfold execToolCall
    simp [MCPClient.is_connected, MCPClient.call_tool, he]

/-- Witness for C5: with the disconnected client the result text is the
not-connected error; with the connected stub client whose session raises
"boom" on `lookup`, the result text carries the cause. -/
theorem per_call_failure_absorption_witness :
    (execToolCall (σ := Unit) wJson (none : Option (MCPClient Unit)) wTc2).1 =
      { role := "tool"
        content := some "Error: MCP client not connected"
        tool_calls := []
        tool_call_id := some wTc2.id } ∧
    (execToolCall (σ := Unit) wJson (some wClient) wTc2).1 =
      { role := "tool"
        content := some ("Error calling tool: " ++ "boom")
        tool_calls := []
        tool_call_id := some wTc2.id } :=
  ⟨(per_call_failure_absorption wJson wTc2).1 none rfl,
   (per_call_failure_absorption wJson wTc2).2 wSession none "boom" rfl⟩

/-- Claim C6 (malformed arguments): for a tool call whose raw arguments
do not parse, the orchestrator substitutes the empty argument set,
invokes the connector with that empty set, and still produces a
tool-result message tagged with the call's id — malformed argument data
never raises and never aborts the round. -/
theorem malformed_arguments {σ τ : Type} (json : JsonLib) (tc : ToolCall)
    (hparse : json.loads tc.arguments = none) :
    argsOf json tc = [] ∧
    (∀ (s : ClientSession) (cache : Option (ListToolsResult τ)),
      (execToolCall (σ := σ) json
          (some { session := some s, tools_cache := cache }) tc).1 =
        { role := "tool"
          content := some (match s.call_tool tc.name [] with
            | .ok result => extract_tool_result result
            | .error e => "Error calling tool: " ++ e)
          tool_calls := []
          tool_call_id := some tc.id }) ∧
    (∀ mcp_client : Option (MCPClient τ),
      (execToolCall (σ := σ) json mcp_client tc).1.role = "tool" ∧
      (execToolCall (σ := σ) json mcp_client tc).1.tool_call_id = some tc.id ∧
      (execToolCall (σ := σ) json mcp_client tc).1.content.isSome = true) := by
  have hargs : argsOf json tc = [] := by rw [argsOf, hparse]
  refine ⟨hargs, ?_, fun mcp_client => ⟨rfl, rfl, rfl⟩⟩
  intro s cache
  unfold execToolCall
  simp only [hargs, MCPClient.is_connected, MCPClient.call_tool]
  cases s.call_tool tc.name [] <;> simp

/-- Witness for C6: `wTc1` carries the unparseable raw string "not
json"; the connector is invoked with the empty argument set and the
round still yields a tool-result message for "call_1". -/
theorem malformed_arguments_witness :
    argsOf wJson wTc1 = [] ∧
    (execToolCall (σ := Unit) wJson (some wClient) wTc1).1 =
      { role := "tool"
        content := some (match wSession.call_tool wTc1.name [] with
          | .ok result => extract_tool_result result
          | .error e => "Error calling tool: " ++ e)
        tool_calls := []
        tool_call_id := some wTc1.id } :=
  ⟨(malformed_arguments (σ := Unit) (τ := Unit) wJson wTc1 rfl).1,
   (malformed_arguments wJson wTc1 rfl).2.1 wSession none⟩

/-- Claim C7 (final-answer classification): whenever a completion
response carries falsy tool calls (`None` or the empty list), the
orchestrator classifies it as the final answer and returns its text,
substituting the empty string when the provider supplied no text — the
returned value is of string type, never null.  This holds both for
in-loop responses (first conjunct) and for the forced final call issued
when the iteration budget is exhausted (second conjunct). -/
theorem final_answer_classification {σ τ : Type} (llm : LiteLLM σ) (json : JsonLib)
    (mcp_client : Option (MCPClient τ)) (model : String) (tools : List σ)
    (fuel calls : Nat) (msgs : List Message) (events : List (TraceEvent σ))
    (toolsArg : Option (List σ)) (response : AssistantMessage)
    (harg : toolsArg = if tools.isEmpty then none else some tools)
    (hresp : response = llm.completion model calls msgs toolsArg)
    (hfalsy : truthy response.tool_calls = false) :
    (runLoop llm json mcp_client model tools (fuel + 1) calls msgs events).1 =
      response.content.getD "" ∧
    (runLoop llm json mcp_client model tools 0 calls msgs events).1 =
      (llm.completion model calls msgs none).content.getD "" := by
  subst harg hresp
  constructor
  · simp [runLoop, hfalsy]
  · simp [runLoop]

/-- Witness for C7: a stub response with `tool_calls = None` and
`content = None` is classified as the final answer and the empty string
is returned, both in the loop and on the forced final call. -/
theorem final_answer_classification_witness :
    (runLoop { completion := fun _ _ _ _ =>
        { content := none, tool_calls := none } } wJson
      (none : Option (MCPClient Unit)) "m" [()] (0 + 1) 0 [] []).1 =
      (({ content := none, tool_calls := none } : AssistantMessage).content.getD "") ∧
    (runLoop { completion := fun _ _ _ _ =>
        { content := none, tool_calls := none } } wJson
      (none : Option (MCPClient Unit)) "m" [()] 0 0 [] []).1 =
      ((({ completion := fun _ _ _ _ =>
        { content := none, tool_calls := none } } : LiteLLM Unit).completion
          "m" 0 [] none).content.getD "") :=
  final_answer_classification
    { completion := fun _ _ _ _ => { content := none, tool_calls := none } }
    wJson (none : Option (MCPClient Unit)) "m" [()] 0 0 [] []
    (some [()]) { content := none, tool_calls := none } rfl rfl rfl

/-- Claim C10 (caller's transcript unchanged): the orchestrator copies
the caller-supplied message list (llm.py:119) and only appends to the
copy, so the final working transcript extends the caller's list — the
run never removes, reorders or rewrites the caller's elements, and in
the pure embedding the caller's list itself is untouched by
construction. -/
theorem caller_transcript_unchanged {σ τ : Type} (llm : LiteLLM σ) (json : JsonLib)
    (provider : String) (messages : List Message) (tools : List σ)
    (mcp_client : Option (MCPClient τ)) (max_iterations : Nat) :
    ∃ appended, (call_llm_with_mcp_tools llm json provider messages tools
      mcp_client max_iterations).transcript = messages ++ appended := by
  rw [call_llm_with_mcp_tools]
  cases hl : MODEL_MAP.lookup provider with
  | none => exact ⟨[], by simp⟩
  | some model =>
    by_cases hm : model = ""
    · exact ⟨[], by simp [hm]⟩
    · simp only [if_neg hm]
      exact runLoop_transcript_extends llm json mcp_client model tools
        max_iterations 0 messages []

/-- Claim C2 (iteration bound): for a model that returns tool requests
on every invocation, a run with `max_iterations = 2` performs exactly 2
tool-executing rounds — the final transcript is the seed plus two
assistant-plus-results rounds — then issues exactly one additional
forced model invocation that passes no tool schemas (the completion
trace is exactly `[some tools, some tools, none]`), and returns that
forced invocation's text as the result; it never executes a third tool
round. -/
theorem iteration_bound {σ τ : Type} (llm : LiteLLM σ) (json : JsonLib)
    (mcp_client : Option (MCPClient τ)) (provider model : String)
    (messages messages1 messages2 : List Message) (tools : List σ)
    (hp : MODEL_MAP.lookup provider = some model) (hm : model ≠ "")
    (htools : tools ≠ [])
    (htc : ∀ m k msgs targ, truthy ((llm.completion m k msgs targ).tool_calls) = true)
    (hm1 : messages1 = messages
      ++ (llm.completion model 0 messages (some tools)).model_dump ::
        (execToolCalls (σ := σ) json mcp_client
          ((llm.completion model 0 messages (some tools)).tool_calls.getD [])).1)
    (hm2 : messages2 = messages1
      ++ (llm.completion model 1 messages1 (some tools)).model_dump ::
        (execToolCalls (σ := σ) json mcp_client
          ((llm.completion model 1 messages1 (some tools)).tool_calls.getD [])).1) :
    (call_llm_with_mcp_tools llm json provider messages tools mcp_client 2).transcript
      = messages2 ∧
    modelEvents (call_llm_with_mcp_tools llm json provider messages tools
        mcp_client 2).events
      = [some tools, some tools, none] ∧
    (call_llm_with_mcp_tools llm json provider messages tools mcp_client 2).result
      = .ok ((llm.completion model 2 messages2 none).content.getD "") := by
  have hE : tools.isEmpty = false := by
    cases tools with
    | nil => exact absurd rfl htools
    | cons a l => rfl
  subst hm2
  subst hm1
  refine ⟨?_, ?_, ?_⟩ <;>
    simp [call_llm_with_mcp_tools, hp, hm, runLoop, hE, htc,
      modelEvents_append, modelEvents_execToolCalls, modelEvents_model_cons,
      modelEvents_tool_cons, modelEvents_nil]

/-- Witness for C2: `wLoopLLM` requests the tool call `wTc1` on every
invocation; with `max_iterations = 2` the run executes exactly two
rounds, issues the forced no-tools call, and returns its text. -/
theorem iteration_bound_witness :
    (call_llm_with_mcp_tools wLoopLLM wJson "claude" [] [()] (some wClient)
        2).transcript = [wDump, wToolMsg, wDump, wToolMsg] ∧
    modelEvents (call_llm_with_mcp_tools wLoopLLM wJson "claude" [] [()]
        (some wClient) 2).events = [some [()], some [()], none] ∧
    (call_llm_with_mcp_tools wLoopLLM wJson "claude" [] [()] (some wClient)
        2).result
      = .ok ((wLoopLLM.completion "anthropic/claude-sonnet-4-20250514" 2
          [wDump, wToolMsg, wDump, wToolMsg] none).content.getD "") :=
  iteration_bound wLoopLLM wJson (some wClient) "claude"
    "anthropic/claude-sonnet-4-20250514" [] [wDump, wToolMsg]
    [wDump, wToolMsg, wDump, wToolMsg] [()]
    rfl (by decide) (by decide) (fun _ _ _ _ => rfl) rfl rfl

/-- Claim C3 as stated is refuted: on this concrete run the first model
response carries both non-empty text ("Let me look") and two tool calls;
the orchestrator does treat it as a tool request and does not return the
text, but the assistant message it appends to the transcript is
`model_dump()`, which preserves the provider-supplied content — the
transcript entry carries `some "Let me look"`, not no content. -/
theorem precedence_rule_counterexample :
    ((call_llm_with_mcp_tools wLLM wJson "claude" [] [()] (some wClient)
        5).transcript)[0]?
      = some { role := "assistant", content := some "Let me look",
               tool_calls := [wTc1, wTc2], tool_call_id := none } ∧
    (some "Let me look" : Option String) ≠ none ∧
    (call_llm_with_mcp_tools wLLM wJson "claude" [] [()] (some wClient)
        5).result = .ok "Final answer" :=
  ⟨rfl, by decide, rfl⟩

/-- Claim C3 (amended): whenever a model response carries one or more
tool calls (with or without accompanying text), the orchestrator treats
it as a tool request — the text is not returned as the final answer, the
loop continues with the round's results — and the assistant message it
appends carries those tool calls together with the provider-supplied
content preserved verbatim (the accompanying text is kept in the
transcript, not discarded from it). -/
theorem precedence_rule_amended {σ τ : Type} (llm : LiteLLM σ) (json : JsonLib)
    (mcp_client : Option (MCPClient τ)) (model : String) (tools : List σ)
    (fuel calls : Nat) (msgs : List Message) (events : List (TraceEvent σ))
    (toolsArg : Option (List σ)) (response : AssistantMessage) (tcs : List ToolCall)
    (harg : toolsArg = if tools.isEmpty then none else some tools)
    (hresp : response = llm.completion model calls msgs toolsArg)
    (hcalls : response.tool_calls = some tcs) (hne : tcs ≠ []) :
    response.model_dump.role = "assistant" ∧
    response.model_dump.tool_calls = tcs ∧
    response.model_dump.content = response.content ∧
    runLoop llm json mcp_client model tools (fuel + 1) calls msgs events =
      runLoop llm json mcp_client model tools fuel (calls + 1)
        (msgs ++ response.model_dump ::
          (execToolCalls (σ := σ) json mcp_client tcs).1)
        ((events ++ [.model toolsArg])
          ++ (execToolCalls (σ := σ) json mcp_client tcs).2) := by
  subst harg hresp
  have ht : truthy (some tcs) = true := by
    cases tcs with
    | nil => exact absurd rfl hne
    | cons a l => rfl
  refine ⟨rfl, ?_, rfl, ?_⟩
  · simp [AssistantMessage.model_dump, hcalls]
  · simp [runLoop, hcalls, ht]

/-- Witness for the amended C3: the first `wLLM` response carries text
and the calls `wTc1`, `wTc2`; the appended assistant message keeps the
text and the loop proceeds into the round. -/
theorem precedence_rule_amended_witness :
    (wLLM.completion "m" 0 [] (some [()])).model_dump.role = "assistant" ∧
    (wLLM.completion "m" 0 [] (some [()])).model_dump.tool_calls = [wTc1, wTc2] ∧
    (wLLM.completion "m" 0 [] (some [()])).model_dump.content
      = (wLLM.completion "m" 0 [] (some [()])).content ∧
    runLoop wLLM wJson (some wClient) "m" [()] (4 + 1) 0 [] [] =
      runLoop wLLM wJson (some wClient) "m" [()] 4 (0 + 1)
        ([] ++ (wLLM.completion "m" 0 [] (some [()])).model_dump ::
          (execToolCalls (σ := Unit) wJson (some wClient) [wTc1, wTc2]).1)
        (([] ++ [.model (some [()])])
          ++ (execToolCalls (σ := Unit) wJson (some wClient) [wTc1, wTc2]).2) :=
  precedence_rule_amended wLLM wJson (some wClient) "m" [()] 4 0 [] []
    (some [()]) (wLLM.completion "m" 0 [] (some [()])) [wTc1, wTc2]
    rfl rfl rfl (by decide)

end AdvisorClient
